import Mathlib

/-!
# Verification of the syro cron scheduler core

A shallow embedding of the `syro` package's cron-scheduler core
(`src/errgroup.go`, `src/syro.cron.go`) and proofs of the spec's claims
about it.

Modelling conventions:

* Go's `error` values are `Option String`: `none` is the nil error, and
  `some msg` is a non-nil error whose `Error()` method returns `msg`.
* Nil-able Go pointers (`*ErrGroup`, `*Job`, `*cron.Cron`, the
  `CronStorage` interface value) are `Option _`; methods with a nil-receiver
  check take the `Option`.
* `time.Time` is an abstract tick counter (`Nat`); each call of
  `time.Now()` reads the counter and advances it by one.
* The external collaborators (the robfig cron trigger source and the
  `CronStorage` persistence backend) are response oracles: pure functions
  giving the error result of each call the core makes into them.
* The wrapped job callback is embedded as a state transformer over an
  `ExecState` that records the tick counter and an observable trace of
  the calls the callback makes (storage writes, the work-function call,
  hook invocations); a Go panic (nil function pointer dereference) is
  `none`.
-/

namespace Syro

/-! ## ErrGroup (src/errgroup.go) -/

structure ErrGroupProps where
  ID : String
  WithNewline : Bool
deriving DecidableEq, Repr

/-- `ErrGroup` from src/errgroup.go: adding only ever appends non-nil
errors, but the public `Errors` field itself can hold nil (`none`)
entries, and `Error()` skips them, so the field is `List (Option String)`. -/
structure ErrGroup where
  Errors : List (Option String)
  Props : Option ErrGroupProps
deriving DecidableEq, Repr

/-- `NewErrGroup`: empty error list; the props argument is variadic and is
kept only when exactly one is given. -/
def NewErrGroup (ep : List ErrGroupProps) : ErrGroup :=
  { Errors := [],
    Props := match ep with
             | [e] => some e
             | _ => none }

/-- `(*ErrGroup).Add`: appends only when both the receiver and the error
are non-nil. -/
def ErrGroup.Add (eg : Option ErrGroup) (err : Option String) : Option ErrGroup :=
  match eg, err with
  | some g, some e => some { g with Errors := g.Errors ++ [some e] }
  | _, _ => eg

/-- `(*ErrGroup).GetErrors`. -/
def ErrGroup.GetErrors (eg : Option ErrGroup) : List (Option String) :=
  match eg with
  | some g => g.Errors
  | none => []

/-- `(*ErrGroup).Error`: empty string for a nil or empty group; otherwise
an optional `"ID: "` header followed by, for each non-nil entry, its
message, then `"; "`, then (when `WithNewline` is set) `"\n"`. -/
def ErrGroup.Error (eg : Option ErrGroup) : String :=
  match eg with
  | none => ""
  | some g =>
    if g.Errors.length = 0 then ""
    else
      let header :=
        match g.Props with
        | some p => if p.ID ≠ "" then p.ID ++ ": " else ""
        | none => ""
      g.Errors.foldl (fun sb err =>
        match err with
        | some e =>
          let sb := sb ++ e ++ "; "
          match g.Props with
          | some p => if p.WithNewline then sb ++ "\n" else sb
          | none => sb
        | none => sb) header

/-- `(*ErrGroup).Len`. -/
def ErrGroup.Len (eg : Option ErrGroup) : Nat :=
  match eg with
  | none => 0
  | some g => g.Errors.length

/-- `(*ErrGroup).ToErr`: the group itself as an error, but only when at
least one error was recorded; `none` (nil) otherwise. -/
def ErrGroup.ToErr (eg : Option ErrGroup) : Option ErrGroup :=
  match eg with
  | none => none
  | some g => if ErrGroup.Len (some g) = 0 then none else some g

end Syro

namespace Syro

/-! ## Claims about ErrGroup -/

/-- **C2** (code_bug evidence). The spec and the repository's own unit
test expect `Error()` on the group holding `["first error", "second
error"]` to be exactly `"first error; second error"`. The code writes
the `"; "` delimiter after *every* entry, the last included, so the
result carries a trailing delimiter: `"first error; second error; "`. -/
theorem errGroup_error_trailing_delimiter :
    ErrGroup.Error
      (ErrGroup.Add (ErrGroup.Add (some (NewErrGroup [])) (some "first error"))
        (some "second error"))
      = "first error; second error; " := by
  rfl

/-- **C9**. `Add nil` is a no-op (in particular any number of `Add nil`
calls leaves a fresh group's length at 0), and `ToErr` on a group holding
zero errors yields no failure (`none`) rather than an empty-string
failure. -/
theorem errGroup_add_nil_noop_and_toErr_empty_nil :
    (∀ eg : Option ErrGroup, ErrGroup.Add eg none = eg) ∧
    (∀ n : Nat, ErrGroup.Len ((ErrGroup.Add · none)^[n] (some (NewErrGroup []))) = 0) ∧
    (∀ eg : Option ErrGroup, ErrGroup.Len eg = 0 → ErrGroup.ToErr eg = none) := by
  refine ⟨?_, ?_, ?_⟩
  · intro eg
    cases eg <;> rfl
  · intro n
    have h : (ErrGroup.Add · none)^[n] (some (NewErrGroup []))
        = some (NewErrGroup []) := by
      induction n with
      | zero => rfl
      | succ k ih => rw [Function.iterate_succ_apply', ih]; rfl
    rw [h]; rfl
  · intro eg h
    cases eg with
    | none => rfl
    | some g =>
      simp only [ErrGroup.ToErr, h, if_pos]

/-- Closed-form instantiation of the hypotheses of
`errGroup_add_nil_noop_and_toErr_empty_nil` at concrete inputs. -/
theorem errGroup_add_nil_noop_and_toErr_empty_nil_witness :
    ErrGroup.Add (some (NewErrGroup [])) none = some (NewErrGroup []) ∧
    ErrGroup.Len ((ErrGroup.Add · none)^[3] (some (NewErrGroup []))) = 0 ∧
    ErrGroup.ToErr (some (NewErrGroup [])) = none := by
  refine ⟨errGroup_add_nil_noop_and_toErr_empty_nil.1 (some (NewErrGroup [])),
    errGroup_add_nil_noop_and_toErr_empty_nil.2.1 3,
    errGroup_add_nil_noop_and_toErr_empty_nil.2.2 (some (NewErrGroup [])) rfl⟩

/-! ## Cron scheduler data model (src/syro.cron.go) -/

/-- Go declares JobStatus as a string type. -/
abbrev JobStatus := String

def JobStatusInitialized : JobStatus := "initialized"
def JobStatusRunning : JobStatus := "running"
def JobStatusDone : JobStatus := "done"
def JobStatusInactive : JobStatus := "inactive"

/-- `CronExecLog`: one record per job execution. Timestamps are abstract
ticks, `ExecutionTime` is a tick difference, and `Error` is the message
string (empty on success), exactly as in the Go struct. -/
structure CronExecLog where
  Source : String
  Name : String
  InitializedAt : Nat
  FinishedAt : Nat
  ExecutionTime : Nat
  Error : String
deriving DecidableEq, Repr

/-- `newCronExecutionLog`: builds the execution record from the start
tick, the current tick (the `time.Now()` read made while building the
record, used for both `FinishedAt` and `ExecutionTime`), and the error
returned by the job function; a nil error leaves `Error` at the empty
string. -/
def newCronExecutionLog (source name : String) (initializedAt : Nat)
    (err : Option String) (now : Nat) : CronExecLog :=
  { Source := source
    Name := name
    InitializedAt := initializedAt
    FinishedAt := now
    ExecutionTime := now - initializedAt
    Error :=
      match err with
      | some e => e
      | none => "" }

/-- `Job`: `Func` is the fallible work function. A Go `func() error`
takes no arguments, so its observable behaviour inside the scheduler is
the error value it returns; a present function is `some r` with `r` its
returned error, a nil function pointer is `none`. The three optional
hooks are modelled by their presence (the scheduler only checks them
against nil and calls them; their bodies are external code), and each
invocation is recorded in the execution trace. -/
structure Job where
  Source : String := ""
  Freq : String
  Name : String
  Func : Option (Option String)
  Description : String := ""
  OnSuccess : Bool := false
  OnError : Bool := false
  PostExecution : Bool := false
deriving DecidableEq, Repr

/-- One observable call made by the scheduler core into its
collaborators during a run, plus the tick at which the start timestamp
was taken. -/
inductive Event where
  | registerJob (source name freq descr : String) (status : JobStatus) (err : Option String)
  | registerExecution (log : CronExecLog)
  | recordStart (t : Nat)
  | callFunc (err : Option String)
  | postExecution (err : Option String)
  | onError (msg : String)
  | onSuccess
  | skipped (name : String)
deriving DecidableEq, Repr

/-- Response oracle for the CronStorage interface: for each call the
scheduler core makes, the error the backend returns. Only the two
methods the execution/registration path calls are needed. -/
structure CronStorage where
  RegisterJob : String → String → String → String → JobStatus → Option String → Option String
  RegisterExecution : CronExecLog → Option String

/-- Response oracle for the robfig cron runner: the error result of
AddJob for a given frequency expression (e.g. a parse failure of the
schedule). -/
structure Cron where
  AddJob : String → Option String

/-- State threaded through one wrapped-callback execution: the tick
counter and the trace of observable events so far; `runErrors` holds the
final value of the local ErrGroup of the last completed run (the
accumulator the code builds and then drops). -/
structure ExecState where
  clock : Nat
  trace : List Event
  runErrors : Option ErrGroup
deriving Repr

/-! ## jobLock (src/syro.cron.go lines 225-243) -/

/-- `sync.Mutex.TryLock`: returns whether the lock was acquired, and the
lock state afterwards. -/
def mutexTryLock (locked : Bool) : Bool × Bool :=
  if locked then (false, locked) else (true, true)

/-- `sync.Mutex.Unlock`. -/
def mutexUnlock (_ : Bool) : Bool := false

/-- `jobLock`: the wrapped function (a state transformer over an
arbitrary state type), the job name, and the mutex state. -/
structure jobLock (σ : Type*) where
  fn : σ → σ
  name : String
  muLocked : Bool

/-- `newJobLock`: the zero-value mutex is unlocked. -/
def newJobLock {σ : Type*} (jobFunc : σ → σ) (name : String) : jobLock σ :=
  { fn := jobFunc, name := name, muLocked := false }

/-- `(*jobLock).Run` over explicit state: attempts a non-blocking
acquire; on success runs the wrapped function with the unlock deferred
(so the lock is released on every exit path); on failure leaves the
state untouched and prints the skip message. Returns the lock, the
wrapped state, and the output lines. -/
def jobLock.Run {σ : Type*} (j : jobLock σ) (s : σ) (out : List String) :
    jobLock σ × σ × List String :=
  match mutexTryLock j.muLocked with
  | (true, l1) =>
    let s1 := j.fn s
    ({ j with muLocked := mutexUnlock l1 }, s1, out)
  | (false, l1) =>
    ({ j with muLocked := l1 }, s,
      out ++ ["job " ++ j.name ++ " already running. Skipping...\n"])

/-- **C1**. For the guard around one job's callable: a Run that fails
the acquire (the mutex is held by an execution still inside the wrapped
function) leaves the wrapped state untouched for every possible wrapped
function — the function is not invoked — adds only the skip line naming
the job, and returns without waiting for the lock; a Run that acquires
the free mutex applies the wrapped function exactly once and returns
with the mutex released, so the lock is never left held after Run
returns and a held mutex always denotes the single execution inside the
wrapped function. -/
theorem jobLock_run_single_flight {σ : Type*} (j : jobLock σ) (s : σ)
    (out : List String) :
    (j.muLocked = true →
      j.Run s out =
        (j, s, out ++ ["job " ++ j.name ++ " already running. Skipping...\n"])) ∧
    (j.muLocked = false →
      j.Run s out = ({ j with muLocked := false }, j.fn s, out)) := by
  obtain ⟨fn, name, mu⟩ := j
  constructor
  · intro h
    simp only at h
    simp [jobLock.Run, mutexTryLock, h]
  · intro h
    simp only at h
    simp [jobLock.Run, mutexTryLock, mutexUnlock, h]

/-- Instantiation of `jobLock_run_single_flight` at concrete inputs
discharging each hypothesis: a held lock skips (state 7 unchanged, one
skip line) and a free lock runs the successor function once and ends
released. -/
theorem jobLock_run_single_flight_witness :
    ((newJobLock Nat.succ "demo" : jobLock Nat).Run 7 [] =
      ({ newJobLock Nat.succ "demo" with muLocked := false }, 8, [])) ∧
    (({ newJobLock Nat.succ "demo" with muLocked := true } : jobLock Nat).Run 7 [] =
      ({ newJobLock Nat.succ "demo" with muLocked := true }, 7,
        ["job demo already running. Skipping...\n"])) := by
  exact ⟨(jobLock_run_single_flight (newJobLock Nat.succ "demo") 7 []).2 rfl,
    (jobLock_run_single_flight { newJobLock Nat.succ "demo" with muLocked := true } 7 []).1 rfl⟩

/-! ## The wrapped callback (src/syro.cron.go lines 95-133)

The closure handed to newJobLock inside Register, as a state
transformer: it performs, in source order, the running-status write
(storage attached only), the start-timestamp read, the work-function
call, the three hook checks, and the execution-record and done-status
writes (storage attached only), accumulating storage failures in a local
ErrGroup whose final value is parked in runErrors and returned to
nobody. A nil Func (impossible for a registered job) would be a nil
dereference panic, modelled as none. -/
def runWrapped (storage : Option CronStorage) (sSource : String) (j : Job)
    (s : ExecState) : Option ExecState :=
  match j.Func with
  | none => none
  | some r =>
    let errors : Option ErrGroup := some (NewErrGroup [])
    let s1 : ExecState :=
      match storage with
      | some _ => { s with trace := s.trace ++
          [Event.registerJob sSource j.Name j.Freq j.Description JobStatusRunning none] }
      | none => s
    let errors : Option ErrGroup :=
      match storage with
      | some st =>
        match st.RegisterJob sSource j.Name j.Freq j.Description JobStatusRunning none with
        | some msg =>
          ErrGroup.Add errors (some ("failed to set job " ++ j.Name ++ " to running: " ++ msg))
        | none => errors
      | none => errors
    let now := s1.clock
    let s2 : ExecState := { s1 with
      clock := s1.clock + 1
      trace := s1.trace ++ [Event.recordStart now] }
    let s3 : ExecState := { s2 with trace := s2.trace ++ [Event.callFunc r] }
    let s4 : ExecState :=
      if j.PostExecution then { s3 with trace := s3.trace ++ [Event.postExecution r] } else s3
    let s5 : ExecState :=
      match r with
      | some m => if j.OnError then { s4 with trace := s4.trace ++ [Event.onError m] } else s4
      | none => s4
    let s6 : ExecState :=
      match r with
      | none => if j.OnSuccess then { s5 with trace := s5.trace ++ [Event.onSuccess] } else s5
      | some _ => s5
    match storage with
    | some st =>
      let log := newCronExecutionLog sSource j.Name now r s6.clock
      let s7 : ExecState := { s6 with
        clock := s6.clock + 1
        trace := s6.trace ++ [Event.registerExecution log] }
      let errors : Option ErrGroup :=
        match st.RegisterExecution log with
        | some msg =>
          ErrGroup.Add errors (some ("failed to register execution for " ++ j.Name ++ ": " ++ msg))
        | none => errors
      let s8 : ExecState := { s7 with trace := s7.trace ++
          [Event.registerJob sSource j.Name j.Freq j.Description JobStatusDone r] }
      let errors : Option ErrGroup :=
        match st.RegisterJob sSource j.Name j.Freq j.Description JobStatusDone r with
        | some msg =>
          ErrGroup.Add errors (some ("failed to set job " ++ j.Name ++ " to done: " ++ msg))
        | none => errors
      some { s8 with runErrors := errors }
    | none => some { s6 with runErrors := errors }

/-- Closed form of the hook segment of a run trace. -/
def hookTrace (r : Option String) (osucc oerr post : Bool) : List Event :=
  (if post then [Event.postExecution r] else []) ++
  (match r with
   | some m => if oerr then [Event.onError m] else []
   | none => []) ++
  (match r with
   | none => if osucc then [Event.onSuccess] else []
   | some _ => [])

/-- Closed form of the full trace one wrapped-callback run appends,
given the storage presence, the job fields, the work-function result r
and the start tick t. -/
def runTrace (storage : Option CronStorage) (src name freq descr : String)
    (r : Option String) (osucc oerr post : Bool) (t : Nat) : List Event :=
  (match storage with
   | some _ => [Event.registerJob src name freq descr JobStatusRunning none]
   | none => []) ++
  [Event.recordStart t, Event.callFunc r] ++
  hookTrace r osucc oerr post ++
  (match storage with
   | some _ => [Event.registerExecution (newCronExecutionLog src name t r (t + 1)),
                Event.registerJob src name freq descr JobStatusDone r]
   | none => [])

/-- Closed form of the tick counter after one run. -/
def runClock (storage : Option CronStorage) (t : Nat) : Nat :=
  match storage with
  | some _ => t + 2
  | none => t + 1

/-- Closed form of the final value of the per-run ErrGroup. -/
def runErrorsResult (storage : Option CronStorage) (src name freq descr : String)
    (r : Option String) (t : Nat) : Option ErrGroup :=
  match storage with
  | none => some (NewErrGroup [])
  | some st =>
    let e1 : Option ErrGroup :=
      match st.RegisterJob src name freq descr JobStatusRunning none with
      | some msg =>
        ErrGroup.Add (some (NewErrGroup [])) (some ("failed to set job " ++ name ++ " to running: " ++ msg))
      | none => some (NewErrGroup [])
    let e2 : Option ErrGroup :=
      match st.RegisterExecution (newCronExecutionLog src name t r (t + 1)) with
      | some msg =>
        ErrGroup.Add e1 (some ("failed to register execution for " ++ name ++ ": " ++ msg))
      | none => e1
    match st.RegisterJob src name freq descr JobStatusDone r with
    | some msg => ErrGroup.Add e2 (some ("failed to set job " ++ name ++ " to done: " ++ msg))
    | none => e2

/-- The wrapped callback in closed form: for a job whose work function
is present and returns r, one run appends exactly runTrace to the trace,
advances the clock by one tick per time.Now() call, and ends with the
per-run accumulator holding runErrorsResult. -/
theorem runWrapped_eq (storage : Option CronStorage) (src : String) (j : Job)
    (r : Option String) (s : ExecState) (h : j.Func = some r) :
    runWrapped storage src j s = some
      { clock := runClock storage s.clock,
        trace := s.trace ++
          runTrace storage src j.Name j.Freq j.Description r
            j.OnSuccess j.OnError j.PostExecution s.clock,
        runErrors := runErrorsResult storage src j.Name j.Freq j.Description r s.clock } := by
  cases storage <;>
    cases r <;>
      cases hp : j.PostExecution <;>
        cases he : j.OnError <;>
          cases hs : j.OnSuccess <;>
            simp [runWrapped, h, hp, he, hs, runClock, runTrace, hookTrace, runErrorsResult]

/-! ## Concrete fixtures used by witnesses and counterexamples -/

/-- A storage backend whose writes all succeed. -/
def okStorage : CronStorage :=
  { RegisterJob := fun _ _ _ _ _ _ => none
    RegisterExecution := fun _ => none }

/-- A storage backend whose running-status, execution-record and
done-status writes all fail, with distinct messages. -/
def failStorage : CronStorage :=
  { RegisterJob := fun _ _ _ _ status _ =>
      if status = JobStatusRunning then some "running write refused"
      else if status = JobStatusDone then some "done write refused"
      else none
    RegisterExecution := fun _ => some "exec write refused" }

/-- A cron runner that accepts every schedule expression. -/
def okCron : Cron := { AddJob := fun _ => none }

/-- Execution state before any run: tick 0, empty trace. -/
def initState : ExecState := { clock := 0, trace := [], runErrors := none }

/-- A job with all three hooks set whose work function returns r. -/
def demoJob (r : Option String) : Job :=
  { Source := "", Freq := "@every 1s", Name := "job1", Func := some r,
    Description := "demo", OnSuccess := true, OnError := true, PostExecution := true }

/-- Whether an event is the start-timestamp read. -/
def isRecordStart (e : Event) : Bool :=
  match e with
  | Event.recordStart _ => true
  | _ => false

/-- Whether an event is the running-status storage write. -/
def isRunningWrite (e : Event) : Bool :=
  match e with
  | Event.registerJob _ _ _ _ status _ => status = JobStatusRunning
  | _ => false

/-- The spec's step order for one firing, as a predicate on a run trace:
the start timestamp is recorded strictly before the running-status
write. -/
def startRecordedBeforeRunningWrite (t : List Event) : Prop :=
  t.findIdx isRecordStart < t.findIdx isRunningWrite

instance (t : List Event) : Decidable (startRecordedBeforeRunningWrite t) := by
  unfold startRecordedBeforeRunningWrite
  infer_instance

/-! ## Claims about the execution pipeline -/

/-- **C8**. The execution record built after the work function returns
carries the job's Source and Name, the recorded start tick, the end
tick, the elapsed tick difference, and an Error field that is the empty
string on a nil error and the message text on a non-nil error. -/
theorem newCronExecutionLog_fields (source name : String) (t : Nat)
    (err : Option String) (now : Nat) :
    (newCronExecutionLog source name t err now).Source = source ∧
    (newCronExecutionLog source name t err now).Name = name ∧
    (newCronExecutionLog source name t err now).InitializedAt = t ∧
    (newCronExecutionLog source name t err now).FinishedAt = now ∧
    (newCronExecutionLog source name t err now).ExecutionTime = now - t ∧
    (newCronExecutionLog source name t err now).Error =
      (match err with
       | some m => m
       | none => "") := by
  cases err <;> exact ⟨rfl, rfl, rfl, rfl, rfl, rfl⟩

/-- **C5** (counterexample). On a storage-attached run of the wrapped
callback, the very first event is the running-status write (index 0) and
the start-timestamp read comes second (index 1), so the claim that the
start timestamp is recorded before the running-status write is false at
this input. -/
theorem run_start_timestamp_not_first_counterexample :
    (runWrapped (some okStorage) "app" (demoJob none) initState).map
        (fun st => (st.trace.findIdx isRunningWrite, st.trace.findIdx isRecordStart))
      = some (0, 1) ∧
    (runWrapped (some okStorage) "app" (demoJob none) initState).map
        (fun st => decide (startRecordedBeforeRunningWrite st.trace))
      = some false := by
  exact ⟨rfl, rfl⟩

/-- **C5** (amended). On every firing of the wrapped callback with
storage attached, the steps occur in this order: the running-status
write is issued first, then the start timestamp is recorded, and only
then is the work function invoked; the remaining steps (hooks and the
closing storage writes) follow. -/
theorem run_running_write_then_start_then_work (st : CronStorage)
    (src name freq descr : String) (r : Option String)
    (osucc oerr post : Bool) (s : ExecState) :
    ∃ rest : List Event,
      (runWrapped (some st) src
          { Source := "", Freq := freq, Name := name, Func := some r,
            Description := descr, OnSuccess := osucc, OnError := oerr,
            PostExecution := post } s).map ExecState.trace
        = some (s.trace ++
            ([Event.registerJob src name freq descr JobStatusRunning none,
              Event.recordStart s.clock, Event.callFunc r] ++ rest)) := by
  refine ⟨hookTrace r osucc oerr post ++
    [Event.registerExecution (newCronExecutionLog src name s.clock r (s.clock + 1)),
     Event.registerJob src name freq descr JobStatusDone r], ?_⟩
  rw [runWrapped_eq (some st) src _ r s rfl]
  simp [runTrace]

/-- **C6**. Persistence failures never steer the run and are never
surfaced: (1) the work function is invoked on every run, whatever the
storage responses; (2) the observable behaviour of a run — its trace and
its clock — is identical under any two storage backends, so in
particular a failing running-status write does not prevent the work
function from running and the accumulated failures reach no caller and
no observable event; (3) under a backend failing all three writes, the
single per-run accumulator ends holding exactly the three wrapped
messages, running-write first, execution-record write second,
done-write third. -/
theorem run_persistence_failures_accumulated_not_surfaced :
    (∀ (storage : Option CronStorage) (src name freq descr : String)
        (r : Option String) (osucc oerr post : Bool) (s : ExecState),
      ∃ st1, runWrapped storage src
          { Source := "", Freq := freq, Name := name, Func := some r,
            Description := descr, OnSuccess := osucc, OnError := oerr,
            PostExecution := post } s = some st1 ∧
        Event.callFunc r ∈ st1.trace) ∧
    (∀ (stA stB : CronStorage) (src : String) (j : Job) (s : ExecState),
      (runWrapped (some stA) src j s).map ExecState.trace
        = (runWrapped (some stB) src j s).map ExecState.trace ∧
      (runWrapped (some stA) src j s).map ExecState.clock
        = (runWrapped (some stB) src j s).map ExecState.clock) ∧
    ((runWrapped (some failStorage) "app" (demoJob (some "boom")) initState).map
        (fun st => ErrGroup.GetErrors st.runErrors)
      = some [some "failed to set job job1 to running: running write refused",
              some "failed to register execution for job1: exec write refused",
              some "failed to set job job1 to done: done write refused"]) := by
  refine ⟨?_, ?_, ?_⟩
  · intro storage src name freq descr r osucc oerr post s
    refine ⟨_, runWrapped_eq storage src _ r s rfl, ?_⟩
    simp [runTrace]
  · intro stA stB src j s
    cases hf : j.Func with
    | none => simp [runWrapped, hf]
    | some r =>
      rw [runWrapped_eq (some stA) src j r s hf, runWrapped_eq (some stB) src j r s hf]
      simp [runTrace, runClock]
  · rfl

/-- **C7**. After the work function returns r on a firing: the
OnComplete hook (PostExecution) fires with exactly r whenever it is
present — for nil and non-nil r alike; the OnError hook fires with m
exactly when it is present and r is the non-nil error m; and on a
failing run with both hooks present the trace shows PostExecution
immediately followed by OnError, both carrying the same failure. -/
theorem run_hooks_postExecution_then_onError (storage : Option CronStorage)
    (src name freq descr : String) (r : Option String)
    (osucc oerr post : Bool) (c : Nat) (rerr : Option ErrGroup) :
    ∃ st1, runWrapped storage src
        { Source := "", Freq := freq, Name := name, Func := some r,
          Description := descr, OnSuccess := osucc, OnError := oerr,
          PostExecution := post }
        { clock := c, trace := [], runErrors := rerr } = some st1 ∧
      (∀ x, Event.postExecution x ∈ st1.trace ↔ (post = true ∧ x = r)) ∧
      (∀ m, Event.onError m ∈ st1.trace ↔ (oerr = true ∧ r = some m)) ∧
      (∀ m, post = true → oerr = true → r = some m →
        ∃ pre rest, st1.trace = pre ++
          [Event.postExecution (some m), Event.onError m] ++ rest) := by
  refine ⟨_, runWrapped_eq storage src _ r _ rfl, ?_, ?_, ?_⟩
  · intro x
    cases storage <;> cases r <;> cases post <;> cases oerr <;> cases osucc <;>
      simp [runTrace, hookTrace, newCronExecutionLog]
  · intro m
    cases storage <;> cases r <;> cases post <;> cases oerr <;> cases osucc <;>
      simp [runTrace, hookTrace, newCronExecutionLog, eq_comm]
  · intro m hpost herr hr
    subst hpost herr hr
    cases storage with
    | none =>
      exact ⟨[Event.recordStart c, Event.callFunc (some m)], [], by
        simp [runTrace, hookTrace]⟩
    | some stg =>
      exact ⟨[Event.registerJob src name freq descr JobStatusRunning none,
              Event.recordStart c, Event.callFunc (some m)],
             [Event.registerExecution (newCronExecutionLog src name c (some m) (c + 1)),
              Event.registerJob src name freq descr JobStatusDone (some m)], by
        simp [runTrace, hookTrace]⟩

/-- Instantiation of `run_hooks_postExecution_then_onError` on a
storage-less run of a job with all hooks whose work function fails with
"boom": PostExecution fires with the failure and is immediately followed
by OnError with the same failure. -/
theorem run_hooks_postExecution_then_onError_witness :
    ∃ st1, runWrapped none "app" (demoJob (some "boom"))
        { clock := 0, trace := [], runErrors := none } = some st1 ∧
      Event.postExecution (some "boom") ∈ st1.trace ∧
      ∃ pre rest, st1.trace = pre ++
        [Event.postExecution (some "boom"), Event.onError "boom"] ++ rest := by
  obtain ⟨st1, hrun, hpost, _, hadj⟩ :=
    run_hooks_postExecution_then_onError none "app" "job1" "@every 1s" "demo"
      (some "boom") true true true 0 none
  exact ⟨st1, hrun, (hpost (some "boom")).mpr ⟨rfl, rfl⟩, hadj "boom" rfl rfl rfl⟩

/-- **C10**. The code has a third optional hook, OnSuccess: it fires
exactly when it is present and the work function returned nil (so never
on a failing run), and on a successful run of a job with the hooks set
it comes right after PostExecution-with-nil. -/
theorem run_onSuccess_hook (storage : Option CronStorage)
    (src name freq descr : String) (r : Option String)
    (osucc oerr post : Bool) (c : Nat) (rerr : Option ErrGroup) :
    ∃ st1, runWrapped storage src
        { Source := "", Freq := freq, Name := name, Func := some r,
          Description := descr, OnSuccess := osucc, OnError := oerr,
          PostExecution := post }
        { clock := c, trace := [], runErrors := rerr } = some st1 ∧
      (Event.onSuccess ∈ st1.trace ↔ (osucc = true ∧ r = none)) ∧
      (post = true → osucc = true → r = none →
        ∃ pre rest, st1.trace = pre ++
          [Event.postExecution none, Event.onSuccess] ++ rest) := by
  refine ⟨_, runWrapped_eq storage src _ r _ rfl, ?_, ?_⟩
  · cases storage <;> cases r <;> cases post <;> cases oerr <;> cases osucc <;>
      simp [runTrace, hookTrace, newCronExecutionLog]
  · intro hpost hsucc hr
    subst hpost hsucc hr
    cases storage with
    | none =>
      exact ⟨[Event.recordStart c, Event.callFunc none], [], by
        simp [runTrace, hookTrace]⟩
    | some stg =>
      exact ⟨[Event.registerJob src name freq descr JobStatusRunning none,
              Event.recordStart c, Event.callFunc none],
             [Event.registerExecution (newCronExecutionLog src name c none (c + 1)),
              Event.registerJob src name freq descr JobStatusDone none], by
        simp [runTrace, hookTrace]⟩

/-- Instantiation of `run_onSuccess_hook` on a storage-less successful
run of a job with all hooks: OnSuccess fires, right after
PostExecution-with-nil. -/
theorem run_onSuccess_hook_witness :
    ∃ st1, runWrapped none "app" (demoJob none)
        { clock := 0, trace := [], runErrors := none } = some st1 ∧
      Event.onSuccess ∈ st1.trace ∧
      ∃ pre rest, st1.trace = pre ++
        [Event.postExecution none, Event.onSuccess] ++ rest := by
  obtain ⟨st1, hrun, hmem, hadj⟩ :=
    run_onSuccess_hook none "app" "job1" "@every 1s" "demo" none true true true 0 none
  exact ⟨st1, hrun, hmem.mpr ⟨rfl, rfl⟩, hadj rfl rfl rfl⟩

/-! ## CronScheduler and Register (src/syro.cron.go lines 14-143) -/

/-- `CronScheduler`: the cron runner pointer (nil-able), the source
identifier, the in-memory job registry (a Go slice of nil-able job
pointers), and the optional storage interface. -/
structure CronScheduler where
  cron : Option Cron
  Source : String
  Jobs : List (Option Job)
  CronStorage : Option Syro.CronStorage

def NewCronScheduler (c : Option Cron) (source : String) : CronScheduler :=
  { cron := c, Source := source, Jobs := [], CronStorage := none }

/-- `(*CronScheduler).WithStorage`. -/
def CronScheduler.WithStorage (s : CronScheduler) (storage : Syro.CronStorage) :
    CronScheduler :=
  { s with CronStorage := some storage }

/-- The duplicate-name scan of Register (the loop over s.Jobs): a
registered entry is a hit when it is non-nil and its name equals the
candidate's, byte for byte. -/
def hasJobNamed (jobs : List (Option Job)) (name : String) : Bool :=
  jobs.any (fun job =>
    match job with
    | some job => job.Name = name
    | none => false)

/-- `(*CronScheduler).Register`: the validation chain in source order
(nil job, nil cron, empty frequency, empty name, nil function, duplicate
name), then — when storage is attached — the initialized-status write
whose failure is returned as-is, then the AddJob installation whose
failure is returned as-is, and only then the append to the registry.
Returns the error and the scheduler afterwards. The callback handed to
AddJob is newJobLock of the closure embedded above as runWrapped; the
cron oracle decides installation success from the frequency
expression. -/
def CronScheduler.Register (s : CronScheduler) (j? : Option Job) :
    Option String × CronScheduler :=
  match j? with
  | none => (some "job cannot be nil", s)
  | some j =>
    match s.cron with
    | none => (some "cron cannot be nil", s)
    | some c =>
      if j.Freq = "" then (some "frequency has to be specified", s)
      else if j.Name = "" then (some "name has to be specified", s)
      else if j.Func = none then (some "job function cannot be nil", s)
      else if hasJobNamed s.Jobs j.Name then
        (some ("job with name " ++ j.Name ++ " already exists"), s)
      else
        let write : Option String :=
          match s.CronStorage with
          | some st =>
            st.RegisterJob s.Source j.Name j.Freq j.Description JobStatusInitialized none
          | none => none
        match write with
        | some e => (some e, s)
        | none =>
          match c.AddJob j.Freq with
          | some e => (some e, s)
          | none => (none, { s with Jobs := s.Jobs ++ [some j] })

/-- Inversion of a successful registration: the registry gained exactly
the new job at the end, and the job passed every validation. -/
theorem register_success_inv (s s1 : CronScheduler) (j : Job)
    (h : s.Register (some j) = (none, s1)) :
    s1 = { s with Jobs := s.Jobs ++ [some j] } ∧
    j.Freq ≠ "" ∧ j.Name ≠ "" ∧ j.Func ≠ none ∧
    hasJobNamed s.Jobs j.Name = false := by
  unfold CronScheduler.Register at h
  cases hc : s.cron with
  | none => rw [hc] at h; simp at h
  | some c =>
    rw [hc] at h
    by_cases hf : j.Freq = "" <;> simp [hf] at h
    by_cases hn : j.Name = "" <;> simp [hn] at h
    by_cases hfn : j.Func = none <;> simp [hfn] at h
    by_cases hdup : hasJobNamed s.Jobs j.Name <;> simp [hdup] at h
    refine ⟨?_, hf, hn, hfn, by simpa using hdup⟩
    cases hw : (match s.CronStorage with
      | some st =>
        st.RegisterJob s.Source j.Name j.Freq j.Description JobStatusInitialized none
      | none => none) with
    | some e => rw [hw] at h; simp at h
    | none =>
      rw [hw] at h
      cases ha : c.AddJob j.Freq with
      | some e => rw [ha] at h; simp at h
      | none => rw [ha] at h; exact (Prod.mk.injEq _ _ _ _ ▸ h).2.symm

/-- A non-empty string has non-zero length. -/
theorem string_ne_empty_length_ne_zero (s : String) (h : s ≠ "") : s.length ≠ 0 := by
  cases s with
  | mk data =>
    intro h0
    apply h
    have hd : data.length = 0 := h0
    have hdata : data = [] := List.length_eq_zero.mp hd
    simp [hdata]

/-- **C4**. Each failed precondition of Register returns its own
validation error and leaves the scheduler — registry included —
unchanged: nil job, empty frequency, empty name, nil work function, and
a (case-sensitive, exact) duplicate of an already-registered name; the
four fixed messages are pairwise distinct and the duplicate-name message
(for the non-empty names only accepted jobs can carry) differs from all
of them; and after one job registers successfully on an empty registry,
a second job with the same name is rejected with the duplicate error
while the registry stays at size 1. -/
theorem register_validation_errors (s : CronScheduler) (hcron : s.cron ≠ none) :
    (s.Register none = (some "job cannot be nil", s)) ∧
    (∀ j : Job, j.Freq = "" →
      s.Register (some j) = (some "frequency has to be specified", s)) ∧
    (∀ j : Job, j.Freq ≠ "" → j.Name = "" →
      s.Register (some j) = (some "name has to be specified", s)) ∧
    (∀ j : Job, j.Freq ≠ "" → j.Name ≠ "" → j.Func = none →
      s.Register (some j) = (some "job function cannot be nil", s)) ∧
    (∀ j : Job, j.Freq ≠ "" → j.Name ≠ "" → j.Func ≠ none →
      hasJobNamed s.Jobs j.Name = true →
      s.Register (some j) = (some ("job with name " ++ j.Name ++ " already exists"), s)) ∧
    ((["job cannot be nil", "frequency has to be specified",
       "name has to be specified", "job function cannot be nil"] : List String).Pairwise
        (fun a b => a ≠ b)) ∧
    (∀ nm : String, nm ≠ "" →
      ("job with name " ++ nm ++ " already exists") ∉
        (["job cannot be nil", "frequency has to be specified",
          "name has to be specified", "job function cannot be nil"] : List String)) ∧
    (∀ (s1 : CronScheduler) (j j2 : Job), s.Jobs = [] →
      s.Register (some j) = (none, s1) → j2.Name = j.Name →
      j2.Freq ≠ "" → j2.Func ≠ none →
      s1.Register (some j2) =
        (some ("job with name " ++ j2.Name ++ " already exists"), s1) ∧
      s1.Jobs.length = 1) := by
  obtain ⟨c, hc⟩ := Option.ne_none_iff_exists'.mp hcron
  refine ⟨rfl, ?_, ?_, ?_, ?_, by decide, ?_, ?_⟩
  · intro j hf
    simp [CronScheduler.Register, hc, hf]
  · intro j hf hn
    simp [CronScheduler.Register, hc, hf, hn]
  · intro j hf hn hfn
    simp [CronScheduler.Register, hc, hf, hn, hfn]
  · intro j hf hn hfn hdup
    simp [CronScheduler.Register, hc, hf, hn, hfn, hdup]
  · intro nm hnm hmem
    have h14 : ("job with name " : String).length = 14 := rfl
    have h15 : (" already exists" : String).length = 15 := rfl
    have hA : ("job cannot be nil" : String).length = 17 := rfl
    have hB : ("frequency has to be specified" : String).length = 29 := rfl
    have hC : ("name has to be specified" : String).length = 24 := rfl
    have hD : ("job function cannot be nil" : String).length = 26 := rfl
    have hpos : nm.length ≠ 0 := string_ne_empty_length_ne_zero nm hnm
    have hlen : ("job with name " ++ nm ++ " already exists").length = 29 + nm.length := by
      rw [String.length_append, String.length_append, h14, h15]
      omega
    simp only [List.mem_cons, List.not_mem_nil, or_false] at hmem
    rcases hmem with h | h | h | h <;>
      (apply_fun String.length at h; rw [hlen] at h; omega)
  · intro s1 j j2 hempty hreg hname hf2 hfn2
    obtain ⟨hs1, hf, hn, hfn, hdup⟩ := register_success_inv s s1 j hreg
    subst hs1
    rw [hempty]
    constructor
    · have hn2 : j2.Name ≠ "" := by rw [hname]; exact hn
      simp [CronScheduler.Register, hc, hf2, hn2, hfn2, hasJobNamed, hname, hn]
    · simp

/-- A scheduler bound to an always-accepting cron runner, no storage. -/
def schedOk : CronScheduler := NewCronScheduler (some okCron) "app"

/-- A job failing only the frequency validation. -/
def jobEmptyFreq : Job := { Freq := "", Name := "x", Func := some none }

/-- A valid job carrying the same name as demoJob. -/
def jobB : Job := { Freq := "@every 5s", Name := "job1", Func := some (some "boom") }

/-- schedOk after demoJob none registered. -/
def schedOk1 : CronScheduler := { schedOk with Jobs := [some (demoJob none)] }

/-- Instantiation of `register_validation_errors` at concrete inputs
discharging each hypothesis: nil-job and empty-frequency rejections
leave the scheduler untouched, and a second job with an already-taken
name is rejected with the registry staying at one entry. -/
theorem register_validation_errors_witness :
    schedOk.Register none = (some "job cannot be nil", schedOk) ∧
    schedOk.Register (some jobEmptyFreq) = (some "frequency has to be specified", schedOk) ∧
    (schedOk1.Register (some jobB) =
      (some ("job with name " ++ jobB.Name ++ " already exists"), schedOk1) ∧
     schedOk1.Jobs.length = 1) := by
  have hcron : schedOk.cron ≠ none := fun h => Option.noConfusion h
  refine ⟨(register_validation_errors schedOk hcron).1,
    (register_validation_errors schedOk hcron).2.1 jobEmptyFreq rfl,
    (register_validation_errors schedOk hcron).2.2.2.2.2.2.2 schedOk1 (demoJob none) jobB
      rfl rfl rfl (by decide) (by decide)⟩

/-- A storage backend that refuses only the initialized-status write. -/
def failInitStorage : CronStorage :=
  { RegisterJob := fun _ _ _ _ status _ =>
      if status = JobStatusInitialized then some "init write refused" else none
    RegisterExecution := fun _ => none }

/-- A cron runner rejecting every schedule expression. -/
def badCron : Cron := { AddJob := fun _ => some "bad schedule" }

def schedFailInit : CronScheduler :=
  (NewCronScheduler (some okCron) "app").WithStorage failInitStorage

def schedBadCron : CronScheduler :=
  (NewCronScheduler (some badCron) "app").WithStorage okStorage

def schedStore : CronScheduler :=
  (NewCronScheduler (some okCron) "app").WithStorage okStorage

/-- **C3**. Registration is atomic with respect to the in-memory
registry: for a job passing every validation on a storage-attached
scheduler, a failing initialized-status write makes Register return that
very error with the scheduler (registry included) unchanged; with the
write succeeding, a failing trigger installation likewise returns that
error with the scheduler unchanged; and only when the write and the
installation both succeed does Register return nil with the job appended
to the registry. -/
theorem register_atomic_storage_install (s : CronScheduler) (c : Cron)
    (stg : Syro.CronStorage) (j : Job)
    (hc : s.cron = some c) (hst : s.CronStorage = some stg)
    (hf : j.Freq ≠ "") (hn : j.Name ≠ "") (hfn : j.Func ≠ none)
    (hdup : hasJobNamed s.Jobs j.Name = false) :
    (∀ e, stg.RegisterJob s.Source j.Name j.Freq j.Description JobStatusInitialized none
        = some e →
      s.Register (some j) = (some e, s)) ∧
    (stg.RegisterJob s.Source j.Name j.Freq j.Description JobStatusInitialized none = none →
      ∀ e, c.AddJob j.Freq = some e → s.Register (some j) = (some e, s)) ∧
    (stg.RegisterJob s.Source j.Name j.Freq j.Description JobStatusInitialized none = none →
      c.AddJob j.Freq = none →
      s.Register (some j) = (none, { s with Jobs := s.Jobs ++ [some j] })) := by
  refine ⟨?_, ?_, ?_⟩
  · intro e hw
    simp [CronScheduler.Register, hc, hst, hf, hn, hfn, hdup, hw]
  · intro hw e ha
    simp [CronScheduler.Register, hc, hst, hf, hn, hfn, hdup, hw, ha]
  · intro hw ha
    simp [CronScheduler.Register, hc, hst, hf, hn, hfn, hdup, hw, ha]

/-- Instantiation of `register_atomic_storage_install` at concrete
inputs discharging each hypothesis: a refused initialized write and a
refused installation each return their error with the registry still
empty, and the all-success path appends the job. -/
theorem register_atomic_storage_install_witness :
    schedFailInit.Register (some (demoJob none)) =
      (some "init write refused", schedFailInit) ∧
    schedBadCron.Register (some (demoJob none)) = (some "bad schedule", schedBadCron) ∧
    schedStore.Register (some (demoJob none)) =
      (none, { schedStore with Jobs := [some (demoJob none)] }) := by
  exact ⟨(register_atomic_storage_install schedFailInit okCron failInitStorage
      (demoJob none) rfl rfl (by decide) (by decide) (by decide) rfl).1
      "init write refused" rfl,
    (register_atomic_storage_install schedBadCron badCron okStorage
      (demoJob none) rfl rfl (by decide) (by decide) (by decide) rfl).2.1
      rfl "bad schedule" rfl,
    (register_atomic_storage_install schedStore okCron okStorage
      (demoJob none) rfl rfl (by decide) (by decide) (by decide) rfl).2.2 rfl rfl⟩

end Syro
